import Mathlib

/-!
Verification development for the Ask-Maps repository.

The definitions below are a shallow embedding of the response-to-UI
reconciliation pipeline of the app (route parsing, tool-call execution,
marker synthesis, the conversation turn, the voice message handler and the
model-service response processing).  Text is modelled as `List Char`;
JavaScript regular-expression matching is embedded by specialised matchers
that reproduce the backtracking behaviour of the concrete patterns used in
the source.  JavaScript builtins that are external to the program
(`Math.random`, `Date.now`, `encodeURIComponent`, audio decoding) are
passed in as explicit environment parameters.
-/

namespace AskMaps

/-- Convert a string literal to the character-list representation used
throughout the model. -/
def str (s : String) : List Char := s.data

/-- JavaScript `\w` character class: `[A-Za-z0-9_]`. -/
def isWordChar (c : Char) : Bool := c.isAlphanum || c = '_'

/-- JavaScript `\s` character class (the ASCII whitespace characters plus
no-break space; the remaining Unicode space code points are not used by any
input considered here). -/
def isSpaceChar (c : Char) : Bool :=
  c = ' ' || c = '\t' || c = '\n' || c = '\r' || c = '\x0b' || c = '\x0c' ||
  c = ' '

/-- JavaScript `String.prototype.trim`: drop leading and trailing `\s`. -/
def trimJS (s : List Char) : List Char :=
  ((s.dropWhile isSpaceChar).reverse.dropWhile isSpaceChar).reverse

/-- Character class of JavaScript `.` (anything but a line terminator). -/
def isDotChar (c : Char) : Bool := !(c = '\n' || c = '\r' || c = ' ' || c = ' ')

/-- Case-insensitive prefix test (JavaScript `/i` matching of an ASCII
pattern). -/
def ciLeadsWith : List Char → List Char → Bool
  | [], _ => true
  | _ :: _, [] => false
  | a :: as, b :: bs => (a.toLower = b.toLower : Bool) && ciLeadsWith as bs

/-- Exact prefix test, as used by `String.prototype.includes` /
`String.prototype.replace` with a plain string pattern. -/
def leadsWith : List Char → List Char → Bool
  | [], _ => true
  | _ :: _, [] => false
  | a :: as, b :: bs => (a = b : Bool) && leadsWith as bs

/-- JavaScript `text.includes(pat)`. -/
def containsSub (pat : List Char) : List Char → Bool
  | [] => pat.isEmpty
  | c :: rest => leadsWith pat (c :: rest) || containsSub pat rest

/-- JavaScript `text.replace(pat, '')` for a plain string pattern: remove
the first occurrence of `pat`, if any. -/
def replaceFirst (pat : List Char) : List Char → List Char
  | [] => []
  | c :: rest =>
    if leadsWith pat (c :: rest) then (c :: rest).drop pat.length
    else c :: replaceFirst pat rest

/-!  Embedding of the labelled-value regexes of `parseRouteData`:
`/(?:Total time|Duration|Estimated time):\s*([\w\s]+?)(?:\.|\n|$)/i` and
`/(?:Total distance|Distance):\s*([\w\s\.]+?)(?:\.|\n|$)/i`.
The capture is lazy (`+?`): after each captured character the terminator
(`.`, `\n` or end of input) is tried first.  The `\s*` before it is greedy
but backtracks one character at a time when the lazy capture fails. -/

/-- Continue a lazy capture: `acc` is the (reversed, nonempty) capture so
far; stop as soon as a terminator follows, extend while the class allows. -/
def lazyCaptureGo (cls : Char → Bool) (acc : List Char) : List Char → Option (List Char)
  | [] => some acc.reverse
  | c :: rest =>
    if c = '.' || c = '\n' then some acc.reverse
    else if cls c then lazyCaptureGo cls (c :: acc) rest
    else none

/-- Lazy capture `([cls]+?)(?:\.|\n|$)` starting exactly here. -/
def lazyCapture (cls : Char → Bool) : List Char → Option (List Char)
  | [] => none
  | c :: rest => if cls c then lazyCaptureGo cls [c] rest else none

/-- Backtrack the greedy `\s*`: `give` holds (reversed) whitespace that can
be handed back to the capture, one character at a time. -/
def wsBacktrack (cls : Char → Bool) : List Char → List Char → Option (List Char)
  | give, rest =>
    match lazyCapture cls rest with
    | some cap => some cap
    | none =>
      match give with
      | [] => none
      | w :: give' => wsBacktrack cls give' (w :: rest)

/-- Match `\s*([cls]+?)(?:\.|\n|$)` at the start of `s`. -/
def matchValueAt (cls : Char → Bool) (s : List Char) : Option (List Char) :=
  let w := s.takeWhile isSpaceChar
  wsBacktrack cls w.reverse (s.drop w.length)

/-- Try the label alternatives in order at the current position; each label
must be followed by `:` and a value. -/
def tryLabelsAt (cls : Char → Bool) : List (List Char) → List Char → Option (List Char)
  | [], _ => none
  | L :: ls, s =>
    match
      (if ciLeadsWith L s then
        match s.drop L.length with
        | ':' :: rest => matchValueAt cls rest
        | _ => none
      else none) with
    | some cap => some cap
    | none => tryLabelsAt cls ls s

/-- Leftmost match of the labelled-value pattern over the whole text. -/
def findLabeledValue (cls : Char → Bool) (labels : List (List Char)) : List Char → Option (List Char)
  | [] => none
  | c :: rest =>
    match tryLabelsAt cls labels (c :: rest) with
    | some cap => some cap
    | none => findLabeledValue cls labels rest

def durClass (c : Char) : Bool := isWordChar c || isSpaceChar c

def distClass (c : Char) : Bool := isWordChar c || isSpaceChar c || c = '.'

def durationLabels : List (List Char) :=
  [str "Total time", str "Duration", str "Estimated time"]

def distanceLabels : List (List Char) :=
  [str "Total distance", str "Distance"]

/-- The `duration` extraction of `parseRouteData`:
`text.match(/(?:Total time|Duration|Estimated time):\s*([\w\s]+?)(?:\.|\n|$)/i)`
followed by `.trim()` on the capture. -/
def durationOf (text : List Char) : Option (List Char) :=
  (findLabeledValue durClass durationLabels text).map trimJS

/-- The `distance` extraction of `parseRouteData`:
`text.match(/(?:Total distance|Distance):\s*([\w\s\.]+?)(?:\.|\n|$)/i)`
followed by `.trim()` on the capture. -/
def distanceOf (text : List Char) : Option (List Char) :=
  (findLabeledValue distClass distanceLabels text).map trimJS

/-! Embedding of the numbered-step regex `/^\d+\.\s+(.+)$/gm` (per line)
and of the per-step parenthesised distance `/\(([\d.]+\s*\w+)\)/`. -/

/-- Split on `'\n'`, as the `m` flag does for `^`/`$`. -/
def splitLines : List Char → List (List Char)
  | [] => [[]]
  | c :: rest =>
    if c = '\n' then [] :: splitLines rest
    else
      match splitLines rest with
      | [] => [[c]]
      | l :: ls => (c :: l) :: ls

/-- Backtrack the greedy `\s+` of the step pattern: the capture `(.+)$` must
cover the whole remainder of the line; surplus whitespace (beyond the one
mandatory `\s`) is handed back one character at a time. -/
def stepCapture : List Char → List Char → Option (List Char)
  | give, rest =>
    if !rest.isEmpty && rest.all isDotChar then some rest
    else
      match give with
      | [] => none
      | w :: give' => stepCapture give' (w :: rest)

/-- Match `\s+(.+)$` against the remainder of a line. -/
def stepWs : List Char → Option (List Char)
  | [] => none
  | c :: rest =>
    if isSpaceChar c then
      let w := rest.takeWhile isSpaceChar
      stepCapture w.reverse (rest.drop w.length)
    else none

/-- Match `^\d+\.\s+(.+)$` against one line, returning the capture. -/
def matchStepLine (line : List Char) : Option (List Char) :=
  let ds := line.takeWhile Char.isDigit
  if ds.isEmpty then none
  else
    match line.drop ds.length with
    | '.' :: rest => stepWs rest
    | _ => none

def isDigitDot (c : Char) : Bool := c.isDigit || c = '.'

/-- Backtrack the greedy `[\d.]+` of the parenthesised-distance pattern:
`taken` is the (reversed, nonempty) digit/dot run currently consumed; after
it the forced-maximal `\s*` and `\w+` must be followed by `')'`. -/
def parenDigits : List Char → List Char → Option (List Char × List Char)
  | [], _ => none
  | t :: taken', rest =>
    let ws := rest.takeWhile isSpaceChar
    let r2 := rest.drop ws.length
    let wd := r2.takeWhile isWordChar
    let r3 := r2.drop wd.length
    match
      (if !wd.isEmpty then
        match r3 with
        | ')' :: after => some ((t :: taken').reverse ++ ws ++ wd, after)
        | _ => none
      else none) with
    | some hit => some hit
    | none => parenDigits taken' (t :: rest)

/-- Try `\(([\d.]+\s*\w+)\)` at the current position; on success return the
captured group and the remainder after `')'`. -/
def parenTryAt : List Char → Option (List Char × List Char)
  | '(' :: rest =>
    let dd := rest.takeWhile isDigitDot
    parenDigits dd.reverse (rest.drop dd.length)
  | _ => none

/-- Leftmost match of `\(([\d.]+\s*\w+)\)`: returns the text before the
match, the captured group, and the text after the match. -/
def findParen : List Char → Option (List Char × List Char × List Char)
  | [] => none
  | c :: rest =>
    match parenTryAt (c :: rest) with
    | some (cap, after) => some ([], cap, after)
    | none =>
      match findParen rest with
      | some (pre, cap, after) => some (c :: pre, cap, after)
      | none => none

structure RouteStep where
  instruction : List Char
  distance : Option (List Char) := none
deriving DecidableEq, Repr

/-- Build one `RouteStep` from a matched step instruction: extract the
parenthesised distance with `/\(([\d.]+\s*\w+)\)/` and strip that
parenthetical from the instruction, then `.trim()`. -/
def mkStep (instr : List Char) : RouteStep :=
  match findParen instr with
  | some (pre, cap, after) => { instruction := trimJS (pre ++ after), distance := some cap }
  | none => { instruction := trimJS instr, distance := none }

/-- All numbered steps of the text, in order of appearance
(`text.matchAll(/^\d+\.\s+(.+)$/gm)`). -/
def parseSteps (text : List Char) : List RouteStep :=
  (splitLines text).filterMap (fun l => (matchStepLine l).map mkStep)

structure GroundingLink where
  uri : List Char
  title : List Char
deriving DecidableEq, Repr

structure RouteSummary where
  stops : List (List Char)
  steps : List RouteStep
  duration : Option (List Char) := none
  distance : Option (List Char) := none
deriving DecidableEq, Repr

/-- The function `parseRouteData` from the app component (full variant): mine the text
for duration, distance and numbered steps; accept the route only if there
is at least one step or at least two links. -/
def parseRouteData (text : List Char) (links : List GroundingLink) : Option RouteSummary :=
  if 0 < (parseSteps text).length ∨ 2 ≤ links.length then
    some { stops := links.map (fun l => l.title), steps := parseSteps text,
           duration := durationOf text, distance := distanceOf text }
  else none

/-! Tool-call executor (`executeFunctionCall`).  JavaScript `args` is a
dynamic object; its possible fields are modelled as optional members, a
missing field being `none` (JavaScript `undefined`).  A number argument is
"present" exactly when it is truthy, i.e. nonzero. -/

structure FnArgs where
  zoom : Option Rat := none
  latitude : Option Rat := none
  longitude : Option Rat := none
  focusX : Option Rat := none
  focusY : Option Rat := none
  layer : Option (List Char) := none
  enabled : Option Bool := none
deriving DecidableEq, Repr

structure FunctionCall where
  id : List Char := []
  name : List Char
  args : FnArgs := {}
deriving DecidableEq, Repr

structure Location where
  lat : Rat
  lng : Rat
deriving DecidableEq, Repr

/-- The map-view state owned by the app component (full variant): the
`zoom`, `mapCenter`, `activeLayer` and `showTraffic` pieces of state.  The
layer and traffic fields are `Option`s because `executeFunctionCall`
stores `fc.args.layer` / `fc.args.enabled` unchecked, which may be
`undefined`. -/
structure MapState where
  zoom : Rat
  mapCenter : Location
  activeLayer : Option (List Char)
  showTraffic : Option Bool
deriving DecidableEq, Repr

/-- The executor `executeFunctionCall` (full variant, lat/lng map): three sequential
name tests; `update_map_view` applies `zoom` when truthy and moves the
center only when both `latitude` and `longitude` are truthy; always
returns the fixed acknowledgement string. -/
def executeFunctionCall (fc : FunctionCall) (s : MapState) : MapState × List Char :=
  let s := if fc.name = str "set_map_layer" then { s with activeLayer := fc.args.layer } else s
  let s := if fc.name = str "toggle_traffic" then { s with showTraffic := fc.args.enabled } else s
  let s :=
    if fc.name = str "update_map_view" then
      let s :=
        match fc.args.zoom with
        | some z => if z ≠ 0 then { s with zoom := z } else s
        | none => s
      match fc.args.latitude, fc.args.longitude with
      | some la, some lo =>
        if la ≠ 0 ∧ lo ≠ 0 then { s with mapCenter := { lat := la, lng := lo } } else s
      | _, _ => s
    else s
  (s, str "UI updated successfully.")

namespace Legacy

/-- The map-view state of the schematic variant of the app component
(`App.tsx`): viewport-relative `centerX`/`centerY` instead of lat/lng. -/
structure MapStateXY where
  zoom : Rat
  centerX : Rat
  centerY : Rat
  activeLayer : Option (List Char)
  showTraffic : Option Bool
deriving DecidableEq, Repr

/-- The executor `executeFunctionCall` of the schematic variant: `update_map_view`
applies `zoom`, `focusX` and `focusY` independently, each when truthy. -/
def executeFunctionCall (fc : FunctionCall) (s : MapStateXY) : MapStateXY × List Char :=
  let s := if fc.name = str "set_map_layer" then { s with activeLayer := fc.args.layer } else s
  let s := if fc.name = str "toggle_traffic" then { s with showTraffic := fc.args.enabled } else s
  let s :=
    if fc.name = str "update_map_view" then
      let s :=
        match fc.args.zoom with
        | some z => if z ≠ 0 then { s with zoom := z } else s
        | none => s
      let s :=
        match fc.args.focusX with
        | some x => if x ≠ 0 then { s with centerX := x } else s
        | none => s
      match fc.args.focusY with
      | some y => if y ≠ 0 then { s with centerY := y } else s
      | none => s
    else s
  (s, str "UI updated successfully.")

end Legacy

/-! Marker synthesis inside `handleSend` (full variant).  `Date.now()`,
`Math.random()` and `encodeURIComponent` are JavaScript builtins external
to the program; they are supplied through a `JsEnv` environment:
`rand i j` is the `j`-th `Math.random()` draw made while building the
marker of link index `i`. -/

structure JsEnv where
  now : Nat
  rand : Nat → Nat → Rat
  encodeComp : List Char → List Char

structure MapMarker where
  uri : List Char
  title : List Char
  id : List Char
  lat : Rat
  lng : Rat
  rating : Rat
  reviewCount : Int
  photoUrl : List Char
  hours : List Char
  address : List Char
  phone : List Char
  website : List Char
  color : List Char
  iconType : List Char
  stopNumber : Option Int := none
deriving DecidableEq, Repr

/-- JavaScript `Array.prototype.indexOf`: index of the first occurrence,
`-1` if absent. -/
def jsIndexOf (xs : List (List Char)) (t : List Char) : Int :=
  match xs with
  | [] => -1
  | x :: rest =>
    if x = t then 0
    else
      let r := jsIndexOf rest t
      if r = -1 then -1 else r + 1

def natStr (n : Nat) : List Char := (toString n).data

def intStr (n : Int) : List Char := (toString n).data

/-- JavaScript `title.toLowerCase().replace(/\s+/g, '')` used for the synthetic
website (ASCII lower-casing). -/
def websiteSlug (title : List Char) : List Char :=
  (title.map Char.toLower).filter (fun c => !isSpaceChar c)

/-- One synthesized marker of `handleSend` (full variant): spread of the
link, turn-unique id, random jitter around the current map center,
placeholder rating/review/photo/hours/address/phone/website, and
`stopNumber` from the first index of the link title in the route stops. -/
def synthMarker (env : JsEnv) (center : Location) (routeData : Option RouteSummary)
    (i : Nat) (link : GroundingLink) : MapMarker :=
  let stopIdx : Option Int := routeData.map (fun rd => jsIndexOf rd.stops link.title)
  let offsetLat : Rat := (env.rand i 0 - 1/2) * (4/100)
  let offsetLng : Rat := (env.rand i 1 - 1/2) * (4/100)
  { uri := link.uri
    title := link.title
    id := str "marker-" ++ natStr env.now ++ str "-" ++ natStr i
    lat := center.lat + offsetLat
    lng := center.lng + offsetLng
    rating := 4 + env.rand i 2
    reviewCount := Rat.floor (env.rand i 3 * 1500) + 100
    photoUrl := str "https://picsum.photos/seed/" ++ env.encodeComp link.title ++ str "/400/250"
    hours := str "Open · Closes 9 PM"
    address := intStr (Rat.floor (env.rand i 4 * 9999)) ++ str " Mockingbird Lane, Mapview, MV 90210"
    phone := str "+1 (555) " ++ intStr (Rat.floor (env.rand i 5 * 900) + 100) ++ str "-" ++
             intStr (Rat.floor (env.rand i 6 * 9000) + 1000)
    website := str "https://www." ++ websiteSlug link.title ++ str ".com"
    color := str "bg-red-500"
    iconType := str "pin"
    stopNumber :=
      match stopIdx with
      | some k => if k ≠ -1 then some (k + 1) else none
      | none => none }

def mapWithIdx (f : Nat → α → β) : Nat → List α → List β
  | _, [] => []
  | i, a :: as => f i a :: mapWithIdx f (i + 1) as

/-! Conversation controller (`handleSend`, full variant).  The async turn
is split at the `await askMaps(...)` point: `handleSendStart` is the
synchronous prefix (guard, optimistic user message, flags), and
`applyOutcome` the continuation run once the model call resolves or
rejects.  The model-call outcome is a parameter (`Except Unit
ModelResult`). -/

inductive Role
  | user
  | assistant
deriving DecidableEq, Repr

structure Message where
  role : Role
  content : List Char
  links : Option (List GroundingLink) := none
  route : Option RouteSummary := none
deriving DecidableEq, Repr

structure ModelResult where
  text : List Char
  links : List GroundingLink
  functionCalls : Option (List FunctionCall) := none
deriving Repr

structure AppState where
  messages : List Message
  input : List Char
  isChatOpen : Bool
  isProcessing : Bool
  activeMarkers : List MapMarker
  map : MapState
deriving Repr

/-- JavaScript `textToSend || input` (an empty `textToSend` string is falsy). -/
def finalInputOf (textToSend : Option (List Char)) (s : AppState) : List Char :=
  match textToSend with
  | some t => if t.isEmpty then s.input else t
  | none => s.input

def userMessage (content : List Char) : Message := { role := .user, content := content }

def failureMessage : Message :=
  { role := .assistant, content := str "Something went wrong. Let's try again." }

def actionMarker : List Char := str "[ACTION: SHOW_MAP]"

/-- Synchronous prefix of `handleSend`: the empty-input / in-flight guard,
then the optimistic user message, input reset, chat opened, processing
flag set.  The returned Bool tells whether the model call is made. -/
def handleSendStart (textToSend : Option (List Char)) (s : AppState) : AppState × Bool :=
  let finalInput := finalInputOf textToSend s
  if (trimJS finalInput).isEmpty || s.isProcessing then (s, false)
  else
    ({ s with messages := s.messages ++ [userMessage finalInput],
              input := [], isChatOpen := true, isProcessing := true }, true)

/-- Continuation of `handleSend` once the model call settles.  On success:
`[ACTION: SHOW_MAP]` handling, tool-call execution, route parsing, marker
synthesis (reading the map center captured before the tool calls ran, as
the closure does), and the assistant message; on failure: the single
generic failure message.  The processing flag is cleared in both cases
(`finally`). -/
def applyOutcome (env : JsEnv) (outcome : Except Unit ModelResult) (s : AppState) : AppState :=
  match outcome with
  | .error _ =>
    { s with messages := s.messages ++ [failureMessage], isProcessing := false }
  | .ok r =>
    let chatOpen := if containsSub actionMarker r.text then false else s.isChatOpen
    let displayText :=
      if containsSub actionMarker r.text then trimJS (replaceFirst actionMarker r.text)
      else r.text
    let map :=
      match r.functionCalls with
      | some fcs => fcs.foldl (fun m fc => (executeFunctionCall fc m).1) s.map
      | none => s.map
    let routeData := parseRouteData r.text r.links
    let markers :=
      if 0 < r.links.length then
        s.activeMarkers ++ mapWithIdx (fun i link => synthMarker env s.map.mapCenter routeData i link) 0 r.links
      else s.activeMarkers
    { s with
      messages := s.messages ++
        [{ role := .assistant, content := displayText, links := some r.links, route := routeData }],
      isChatOpen := chatOpen,
      map := map,
      activeMarkers := markers,
      isProcessing := false }

/-- One full `handleSend` turn with the given model-call outcome; the
second component counts the outbound model calls made. -/
def handleSend (env : JsEnv) (textToSend : Option (List Char))
    (outcome : Except Unit ModelResult) (s : AppState) : AppState × Nat :=
  let (s1, go) := handleSendStart textToSend s
  if go then (applyOutcome env outcome s1, 1) else (s1, 0)

/-- Initial state of the app component (the `useState` defaults of the
full variant). -/
def initialAppState : AppState :=
  { messages := []
    input := []
    isChatOpen := false
    isProcessing := false
    activeMarkers := []
    map := { zoom := 13, mapCenter := { lat := (37.7749 : Rat), lng := (-122.4194 : Rat) },
             activeLayer := some (str "standard"), showTraffic := some false } }

/-! Voice session message handler (the `onmessage` callback of
`startVoiceMode`).  An inbound audio payload is decoded externally; only
its duration matters to scheduling, so the decoded chunk is modelled by
its duration.  `sources` is the set of scheduled-and-not-stopped buffer
sources with their start times. -/

structure ScheduledChunk where
  startTime : Rat
  duration : Rat
deriving DecidableEq, Repr

structure VoiceState where
  nextStartTime : Rat
  sources : List ScheduledChunk
deriving DecidableEq, Repr

structure ServerMsg where
  audio : Option Rat := none
  interrupted : Bool := false
  toolCalls : Option (List FunctionCall) := none

structure ToolResponse where
  id : List Char
  name : List Char
  result : List Char
deriving DecidableEq, Repr

/-- The `onmessage` handler: schedule inbound audio at
`max nextStartTime currentTime`; on an interruption signal stop every
scheduled source, clear the set and reset the clock; dispatch tool calls
to `executeFunctionCall` and collect the correlated responses. -/
def onVoiceMessage (clock : Rat) (msg : ServerMsg) (vs : VoiceState) (ms : MapState) :
    VoiceState × MapState × List ToolResponse :=
  let vs :=
    match msg.audio with
    | some d =>
      let t := max vs.nextStartTime clock
      { nextStartTime := t + d, sources := vs.sources ++ [{ startTime := t, duration := d }] }
    | none => vs
  let vs := if msg.interrupted then { nextStartTime := 0, sources := [] } else vs
  let msr :=
    match msg.toolCalls with
    | some fcs =>
      fcs.foldl
        (fun (p : MapState × List ToolResponse) fc =>
          let r := executeFunctionCall fc p.1
          (r.1, p.2 ++ [({ id := fc.id, name := fc.name, result := r.2 } : ToolResponse)]))
        (ms, [])
    | none => (ms, [])
  (vs, msr.1, msr.2)

/-! Model service (`askMaps` in the service module).  The network call is
external; the raw resolved response is the input.  Optional/absent fields
of the dynamic response object are `Option`s; string truthiness is
non-emptiness. -/

structure MapsChunkInfo where
  uri : Option (List Char) := none
  title : Option (List Char) := none

structure GroundingChunk where
  maps : Option MapsChunkInfo := none

structure RawResponse where
  text : Option (List Char) := none
  chunks : Option (List GroundingChunk) := none
  functionCalls : Option (List FunctionCall) := none

/-- The response-processing portion of `askMaps`: substitute the fixed
placeholder for a falsy text, extract the grounding links (a chunk
contributes a link exactly when `chunk.maps?.uri` is truthy, with
`"View on Maps"` for a falsy title), and pass the function calls
through. -/
def askMaps (response : RawResponse) : ModelResult :=
  let text :=
    match response.text with
    | some t => if t.isEmpty then str "Searching the map for you..." else t
    | none => str "Searching the map for you..."
  let links :=
    match response.chunks with
    | some cs =>
      cs.foldl
        (fun acc c =>
          match c.maps with
          | some mi =>
            match mi.uri with
            | some u =>
              if u.isEmpty then acc
              else
                acc ++ [{ uri := u,
                          title :=
                            match mi.title with
                            | some t => if t.isEmpty then str "View on Maps" else t
                            | none => str "View on Maps" }]
            | none => acc
          | none => acc)
        []
    | none => []
  { text := text, links := links, functionCalls := response.functionCalls }

/-! ### Helper lemmas -/

theorem dropWhile_head_not {p : Char → Bool} {l t : List Char} {c : Char}
    (h : l.dropWhile p = c :: t) : p c = false := by
  induction l with
  | nil => simp [List.dropWhile] at h
  | cons a as ih =>
    rw [List.dropWhile_cons] at h
    by_cases hp : p a = true
    · exact ih (by simpa [hp] using h)
    · rw [if_neg (by simp [hp])] at h
      obtain ⟨rfl, -⟩ := List.cons.inj h
      simpa using hp

theorem dropWhile_idem (p : Char → Bool) (l : List Char) :
    (l.dropWhile p).dropWhile p = l.dropWhile p := by
  cases h : l.dropWhile p with
  | nil => simp
  | cons c t => rw [List.dropWhile_cons, dropWhile_head_not h]; simp

theorem dropWhile_surplus (p : Char → Bool) (l : List Char) :
    ∃ w, w ++ l.dropWhile p = l := by
  induction l with
  | nil => exact ⟨[], rfl⟩
  | cons a as ih =>
    by_cases hp : p a = true
    · obtain ⟨w, hw⟩ := ih
      exact ⟨a :: w, by simp [List.dropWhile_cons, hp, hw]⟩
    · exact ⟨[], by simp [List.dropWhile_cons, hp]⟩

theorem trimJS_dropWhile (s : List Char) :
    (trimJS s).dropWhile isSpaceChar = trimJS s := by
  unfold trimJS
  obtain ⟨w, hw⟩ := dropWhile_surplus isSpaceChar (s.dropWhile isSpaceChar).reverse
  cases hXr : ((s.dropWhile isSpaceChar).reverse.dropWhile isSpaceChar).reverse with
  | nil => simp
  | cons c tl =>
    have h1 : ((s.dropWhile isSpaceChar).reverse.dropWhile isSpaceChar).reverse ++ w.reverse =
        s.dropWhile isSpaceChar := by
      rw [← List.reverse_append, hw, List.reverse_reverse]
    rw [hXr] at h1
    have hu : s.dropWhile isSpaceChar = c :: (tl ++ w.reverse) := by
      rw [← h1, List.cons_append]
    have hc : isSpaceChar c = false :=
      dropWhile_head_not (t := tl ++ w.reverse) (by rw [dropWhile_idem, hu])
    simp [List.dropWhile_cons, hc]

theorem trimJS_reverse_dropWhile (s : List Char) :
    (trimJS s).reverse.dropWhile isSpaceChar = (trimJS s).reverse := by
  unfold trimJS
  rw [List.reverse_reverse]
  exact dropWhile_idem _ _

theorem trimJS_trimJS (s : List Char) : trimJS (trimJS s) = trimJS s := by
  conv_lhs => rw [trimJS]
  rw [trimJS_dropWhile, trimJS_reverse_dropWhile, List.reverse_reverse]

theorem leadsWith_append (pat l : List Char) : leadsWith pat (pat ++ l) = true := by
  induction pat with
  | nil => rfl
  | cons c cs ih => simp [leadsWith, ih]

theorem containsSub_of_append (pat l : List Char) (hp : pat ≠ []) :
    containsSub pat (pat ++ l) = true := by
  cases pat with
  | nil => exact absurd rfl hp
  | cons c cs =>
    rw [List.cons_append, containsSub]
    rw [show (c :: (cs ++ l)) = (c :: cs) ++ l from rfl, leadsWith_append]
    rfl

theorem replaceFirst_append (pat l : List Char) (hp : pat ≠ []) :
    replaceFirst pat (pat ++ l) = l := by
  cases pat with
  | nil => exact absurd rfl hp
  | cons c cs =>
    rw [List.cons_append, replaceFirst]
    rw [show (c :: (cs ++ l)) = (c :: cs) ++ l from rfl, leadsWith_append]
    simp [List.drop_left]

/-- Index of the first occurrence of `t`, as a plain `findIdx`. -/
def firstIdx (xs : List (List Char)) (t : List Char) : Nat :=
  xs.findIdx (fun x => x = t)

theorem jsIndexOf_not_mem {xs : List (List Char)} {t : List Char} (h : t ∉ xs) :
    jsIndexOf xs t = -1 := by
  induction xs with
  | nil => rfl
  | cons x rest ih =>
    rw [jsIndexOf]
    rw [if_neg fun hx : x = t => h (List.mem_cons.mpr (Or.inl hx.symm))]
    rw [ih fun ht => h (List.mem_cons_of_mem x ht)]
    simp

theorem jsIndexOf_mem {xs : List (List Char)} {t : List Char} (h : t ∈ xs) :
    jsIndexOf xs t = (firstIdx xs t : Int) := by
  induction xs with
  | nil => exact absurd h (List.not_mem_nil t)
  | cons x rest ih =>
    rw [jsIndexOf, firstIdx, List.findIdx_cons]
    by_cases hx : x = t
    · rw [if_pos hx]
      simp [hx]
    · have ht : t ∈ rest := (List.mem_cons.mp h).resolve_left fun ht => hx ht.symm
      rw [if_neg hx, ih ht]
      have hne : ((firstIdx rest t : Int)) ≠ -1 := by omega
      simp only [hx, decide_False, cond_false, hne, if_neg, firstIdx]
      push_cast
      ring

theorem jsIndexOf_nonneg_of_mem {xs : List (List Char)} {t : List Char} (h : t ∈ xs) :
    jsIndexOf xs t ≠ -1 := by
  rw [jsIndexOf_mem h]
  omega

/-! ### Claims -/

/-- C1: `parseRouteData` returns a route exactly when the number of parsed
numbered steps is positive or the link count is at least 2; with zero
steps and one link it returns no route; with two links and zero steps it
returns a route with empty steps whose stops are the two link titles in
link order. -/
theorem parseRouteData_acceptance :
    (∀ text links, (parseRouteData text links).isSome ↔
        (0 < (parseSteps text).length ∨ 2 ≤ links.length))
    ∧ (∀ text l, parseSteps text = [] → parseRouteData text [l] = none)
    ∧ (∀ text l1 l2, parseSteps text = [] →
        ∃ r, parseRouteData text [l1, l2] = some r ∧ r.steps = [] ∧
          r.stops = [l1.title, l2.title]) := by
  refine ⟨fun text links => ?_, fun text l h => ?_, fun text l1 l2 h => ?_⟩
  · by_cases h : 0 < (parseSteps text).length ∨ 2 ≤ links.length <;>
      simp [parseRouteData, h]
  · simp [parseRouteData, h]
  · refine ⟨{ stops := [l1.title, l2.title], steps := [],
              duration := durationOf text, distance := distanceOf text },
            ?_, rfl, rfl⟩
    simp [parseRouteData, h]

theorem parseRouteData_acceptance_witness :
    parseRouteData (str "no route info") [{ uri := str "u1", title := str "A" }] = none
    ∧ ∃ r, parseRouteData (str "no route info")
          [{ uri := str "u1", title := str "A" }, { uri := str "u2", title := str "B" }] = some r
        ∧ r.steps = [] ∧ r.stops = [str "A", str "B"] :=
  ⟨parseRouteData_acceptance.2.1 _ _ (by decide),
   parseRouteData_acceptance.2.2 (str "no route info")
     { uri := str "u1", title := str "A" } { uri := str "u2", title := str "B" } (by decide)⟩

/-- C4: a tool call whose name is none of `update_map_view`,
`set_map_layer`, `toggle_traffic` leaves the map-view state unchanged (in
both variants of the executor), does not fail, and still returns the fixed
acknowledgement string. -/
theorem executeFunctionCall_unknown_noop (fc : FunctionCall) (s : MapState)
    (s2 : Legacy.MapStateXY)
    (h1 : fc.name ≠ str "update_map_view") (h2 : fc.name ≠ str "set_map_layer")
    (h3 : fc.name ≠ str "toggle_traffic") :
    executeFunctionCall fc s = (s, str "UI updated successfully.")
    ∧ Legacy.executeFunctionCall fc s2 = (s2, str "UI updated successfully.") := by
  constructor
  · simp [executeFunctionCall, h1, h2, h3]
  · simp [Legacy.executeFunctionCall, h1, h2, h3]

theorem executeFunctionCall_unknown_noop_witness :
    executeFunctionCall { name := str "fly_to_the_moon" } initialAppState.map
      = (initialAppState.map, str "UI updated successfully.")
    ∧ Legacy.executeFunctionCall { name := str "fly_to_the_moon" }
        { zoom := 2, centerX := 50, centerY := 50,
          activeLayer := some (str "standard"), showTraffic := some false }
      = ({ zoom := 2, centerX := 50, centerY := 50,
           activeLayer := some (str "standard"), showTraffic := some false },
         str "UI updated successfully.") :=
  executeFunctionCall_unknown_noop _ _ _ (by decide) (by decide) (by decide)

/-- An `update_map_view` call with the given zoom/latitude/longitude
arguments. -/
def updView (z la lo : Option Rat) : FunctionCall :=
  { name := str "update_map_view", args := { zoom := z, latitude := la, longitude := lo } }

/-- C9: in `update_map_view` a numeric argument equal to 0 is treated as
absent (presence is truthiness): zoom 0 leaves the zoom unchanged, and a
latitude of 0, a longitude of 0, or only one of latitude/longitude leaves
the map center entirely unchanged. -/
theorem executeFunctionCall_zero_is_absent :
    (∀ (s : MapState) lat lng,
        (executeFunctionCall (updView (some 0) lat lng) s).1.zoom = s.zoom)
    ∧ (∀ (s : MapState) z lng,
        (executeFunctionCall (updView z (some 0) lng) s).1.mapCenter = s.mapCenter)
    ∧ (∀ (s : MapState) z lat,
        (executeFunctionCall (updView z lat (some 0)) s).1.mapCenter = s.mapCenter)
    ∧ (∀ (s : MapState) z lat,
        (executeFunctionCall (updView z lat none) s).1.mapCenter = s.mapCenter)
    ∧ (∀ (s : MapState) z lng,
        (executeFunctionCall (updView z none lng) s).1.mapCenter = s.mapCenter) := by
  have e1 : ¬ (str "update_map_view" = str "set_map_layer") := by decide
  have e2 : ¬ (str "update_map_view" = str "toggle_traffic") := by decide
  refine ⟨fun s lat lng => ?_, fun s z lng => ?_, fun s z lat => ?_,
          fun s z lat => ?_, fun s z lng => ?_⟩ <;>
    simp only [executeFunctionCall, updView, if_neg e1, if_neg e2, if_pos rfl]
  · cases lat <;> cases lng <;> (simp; try split) <;> rfl
  · cases z <;> cases lng <;> (simp; try split) <;> rfl
  · cases z <;> cases lat <;> (simp; try split) <;> rfl
  · cases z <;> cases lat <;> (simp; try split) <;> rfl
  · cases z <;> cases lng <;> (simp; try split) <;> rfl

/-- C10 (amended): `askMaps` substitutes the fixed placeholder when the
response text is absent or empty, so the text `askMaps` itself returns is
never the empty string.  (The stored assistant message content of a
successful turn can still be empty: see the counterexample below, where
the returned text consists exactly of the display directive and the
directive stripping leaves an empty content.) -/
theorem askMaps_text_fallback :
    (∀ r : RawResponse, (r.text = none ∨ r.text = some []) →
        (askMaps r).text = str "Searching the map for you...")
    ∧ ∀ r : RawResponse, (askMaps r).text ≠ [] := by
  constructor
  · rintro r (h | h) <;> simp [askMaps, h]
  · intro r
    rcases h : r.text with _ | t
    · rw [show (askMaps r).text = str "Searching the map for you..." from by simp [askMaps, h]]
      decide
    · cases t with
      | nil =>
        rw [show (askMaps r).text = str "Searching the map for you..." from by
              simp [askMaps, h]]
        decide
      | cons c t' => simp [askMaps, h]

theorem askMaps_text_fallback_witness :
    (askMaps { text := none }).text = str "Searching the map for you..." :=
  askMaps_text_fallback.1 _ (Or.inl rfl)

/-- C10 counterexample: a response whose text is exactly the display
directive is nonempty, so `askMaps` passes it through unchanged, yet the
successful turn stores an assistant message whose content is the empty
string (the directive is stripped and the remainder trims to nothing) —
refuting the claim that a successful turn's assistant message content is
never empty. -/
theorem askMaps_empty_content_counterexample :
    (askMaps { text := some actionMarker }).text = actionMarker
    ∧ (handleSend { now := 0, rand := fun _ _ => 0, encodeComp := fun l => l }
          (some (str "show map"))
          (Except.ok (askMaps { text := some actionMarker }))
          initialAppState).1.messages =
        [userMessage (str "show map"),
         { role := .assistant, content := [], links := some [], route := none }] := by
  decide

/-- C2: when the model call rejects, the turn is atomic: the transcript
gains the optimistic user message and exactly one assistant message with
the fixed failure text, no markers are added, marker and map state from
prior turns are untouched, and the processing flag returns to false. -/
theorem handleSend_error_atomic (env : JsEnv) (t : Option (List Char)) (e : Unit) (s : AppState)
    (hin : (trimJS (finalInputOf t s)).isEmpty = false) (hproc : s.isProcessing = false) :
    handleSend env t (Except.error e) s =
      ({ s with messages := s.messages ++ [userMessage (finalInputOf t s), failureMessage],
                input := [], isChatOpen := true, isProcessing := false }, 1) := by
  simp [handleSend, handleSendStart, applyOutcome, hin, hproc]

theorem handleSend_error_atomic_witness :
    handleSend { now := 0, rand := fun _ _ => 0, encodeComp := fun l => l }
        (some (str "hi")) (Except.error ()) initialAppState =
      ({ initialAppState with
          messages := initialAppState.messages ++
            [userMessage (finalInputOf (some (str "hi")) initialAppState), failureMessage],
          input := [], isChatOpen := true, isProcessing := false }, 1) :=
  handleSend_error_atomic _ _ _ _ (by decide) (by decide)

/-- C3: a submit with empty/whitespace-only input, or while a turn is in
flight, is a complete no-op making no model call; and a second submit
issued after a first one started (before it resolves) is rejected, so two
submits produce exactly one outbound model call. -/
theorem handleSend_noop_of_guard (env : JsEnv) (t : Option (List Char))
    (out : Except Unit ModelResult) (s : AppState)
    (h : (trimJS (finalInputOf t s)).isEmpty = true ∨ s.isProcessing = true) :
    handleSend env t out s = (s, 0) := by
  rcases h with h | h <;> simp [handleSend, handleSendStart, h]

theorem handleSend_submit_guard :
    (∀ env t out s, ((trimJS (finalInputOf t s)).isEmpty = true ∨ s.isProcessing = true) →
        handleSend env t out s = (s, 0))
    ∧ (∀ env t1 t2 out s,
        (trimJS (finalInputOf t1 s)).isEmpty = false → s.isProcessing = false →
        (handleSendStart t1 s).2 = true ∧
        handleSend env t2 out (handleSendStart t1 s).1 = ((handleSendStart t1 s).1, 0)) := by
  refine ⟨handleSend_noop_of_guard, fun env t1 t2 out s h1 h2 => ?_⟩
  have hs1 : (handleSendStart t1 s).1.isProcessing = true := by
    simp [handleSendStart, h1, h2]
  exact ⟨by simp [handleSendStart, h1, h2], handleSend_noop_of_guard _ _ _ _ (Or.inr hs1)⟩

theorem handleSend_submit_guard_witness :
    handleSend { now := 0, rand := fun _ _ => 0, encodeComp := fun l => l } (some (str "  "))
        (Except.error ()) initialAppState = (initialAppState, 0)
    ∧ ((handleSendStart (some (str "hello")) initialAppState).2 = true ∧
        handleSend { now := 0, rand := fun _ _ => 0, encodeComp := fun l => l } (some (str "again"))
            (Except.error ()) (handleSendStart (some (str "hello")) initialAppState).1 =
          ((handleSendStart (some (str "hello")) initialAppState).1, 0)) :=
  ⟨handleSend_submit_guard.1 _ _ _ _ (Or.inl (by decide)),
   handleSend_submit_guard.2 _ _ (some (str "again")) _ _ (by decide) (by decide)⟩

/-- C6: a synthesized marker for a turn with a route gets
`stopNumber` = 1 + index of the first occurrence of its link title in the
route stops, and no `stopNumber` when the title does not occur or the
turn has no route; in particular for stops `["A","B","C"]` and title
`"B"` the marker gets `stopNumber` 2. -/
theorem synthMarker_stop_numbering :
    (∀ env center rd i link, link.title ∈ rd.stops →
        (synthMarker env center (some rd) i link).stopNumber =
          some ((firstIdx rd.stops link.title : Int) + 1))
    ∧ (∀ env center rd i link, link.title ∉ rd.stops →
        (synthMarker env center (some rd) i link).stopNumber = none)
    ∧ (∀ env center i link, (synthMarker env center none i link).stopNumber = none)
    ∧ (∀ env center i uri,
        (synthMarker env center (some { stops := [str "A", str "B", str "C"], steps := [] })
            i { uri := uri, title := str "B" }).stopNumber = some 2) := by
  refine ⟨fun env center rd i link h => ?_, fun env center rd i link h => ?_,
          fun env center i link => ?_, fun env center i uri => ?_⟩
  · simp [synthMarker, jsIndexOf_mem h, jsIndexOf_nonneg_of_mem h,
          if_pos (jsIndexOf_nonneg_of_mem h)]
  · simp [synthMarker, jsIndexOf_not_mem h]
  · simp [synthMarker]
  · have hj : jsIndexOf [str "A", str "B", str "C"] (str "B") = 1 := by decide
    simp [synthMarker, hj]

theorem synthMarker_stop_numbering_witness :
    (synthMarker { now := 0, rand := fun _ _ => 0, encodeComp := fun l => l }
        { lat := 0, lng := 0 }
        (some { stops := [str "A", str "B", str "C"], steps := [] }) 0
        { uri := str "u", title := str "B" }).stopNumber =
      some ((firstIdx [str "A", str "B", str "C"] (str "B") : Int) + 1) :=
  synthMarker_stop_numbering.1 _ _ _ _ _ (by decide)

/-- C7: on a successful turn whose response text starts with the
`[ACTION: SHOW_MAP]` display directive, the directive is stripped (and
the remainder trimmed) before being stored as the assistant message
content, and the chat-visibility flag ends up false (map-focused view). -/
theorem handleSend_action_directive (env : JsEnv) (t : Option (List Char)) (s : AppState)
    (r : ModelResult) (rest : List Char)
    (hin : (trimJS (finalInputOf t s)).isEmpty = false) (hproc : s.isProcessing = false)
    (htext : r.text = actionMarker ++ rest) :
    (handleSend env t (Except.ok r) s).1.isChatOpen = false ∧
    (handleSend env t (Except.ok r) s).1.messages =
      s.messages ++ [userMessage (finalInputOf t s),
        { role := .assistant, content := trimJS rest, links := some r.links,
          route := parseRouteData r.text r.links }] := by
  have hc : containsSub actionMarker r.text = true := by
    rw [htext]; exact containsSub_of_append _ _ (by decide)
  have hr : replaceFirst actionMarker r.text = rest := by
    rw [htext]; exact replaceFirst_append _ _ (by decide)
  constructor <;> simp [handleSend, handleSendStart, applyOutcome, hin, hproc, hc, hr]

theorem handleSend_action_directive_witness :
    ((handleSend { now := 0, rand := fun _ _ => 0, encodeComp := fun l => l }
        (some (str "show map"))
        (Except.ok { text := actionMarker ++ str " Here is the map view.", links := [] })
        initialAppState).1.isChatOpen = false)
    ∧ ((handleSend { now := 0, rand := fun _ _ => 0, encodeComp := fun l => l }
        (some (str "show map"))
        (Except.ok { text := actionMarker ++ str " Here is the map view.", links := [] })
        initialAppState).1.messages =
      initialAppState.messages ++ [userMessage (finalInputOf (some (str "show map")) initialAppState),
        { role := .assistant, content := trimJS (str " Here is the map view."),
          links := some ([] : List GroundingLink),
          route := parseRouteData (actionMarker ++ str " Here is the map view.") [] }]) :=
  handleSend_action_directive _ _ _ _ _ (by decide) (by decide) rfl

/-- C8: each inbound audio chunk is scheduled to start at the maximum of
the accumulated end time of prior chunks and the current playback clock;
an interruption signal leaves no scheduled-but-unstarted chunk and resets
the schedule clock to 0, so the next chunk starts at the current clock. -/
theorem onVoiceMessage_playback :
    (∀ clock d vs ms,
        (onVoiceMessage clock { audio := some d } vs ms).1 =
          { nextStartTime := max vs.nextStartTime clock + d,
            sources := vs.sources ++ [{ startTime := max vs.nextStartTime clock, duration := d }] })
    ∧ (∀ clock msg vs ms, msg.interrupted = true →
        (onVoiceMessage clock msg vs ms).1 = { nextStartTime := 0, sources := [] })
    ∧ (∀ clock clock2 d msg vs ms, msg.interrupted = true → 0 ≤ clock2 →
        (onVoiceMessage clock2 { audio := some d } ((onVoiceMessage clock msg vs ms).1) ms).1.sources
          = [{ startTime := clock2, duration := d }]) := by
  have base : ∀ clock d vs ms,
      (onVoiceMessage clock { audio := some d } vs ms).1 =
        { nextStartTime := max vs.nextStartTime clock + d,
          sources := vs.sources ++ [{ startTime := max vs.nextStartTime clock, duration := d }] } := by
    intro clock d vs ms
    simp [onVoiceMessage]
  have interrupt : ∀ clock msg vs ms, msg.interrupted = true →
      (onVoiceMessage clock msg vs ms).1 = { nextStartTime := 0, sources := [] } := by
    intro clock msg vs ms h
    cases ha : msg.audio <;> simp [onVoiceMessage, h, ha]
  refine ⟨base, interrupt, fun clock clock2 d msg vs ms h h2 => ?_⟩
  rw [interrupt clock msg vs ms h, base]
  simp [max_eq_right h2]

theorem onVoiceMessage_playback_witness :
    ((onVoiceMessage 1 { interrupted := true }
        { nextStartTime := 5, sources := [{ startTime := 2, duration := 3 }] }
        initialAppState.map).1 = { nextStartTime := 0, sources := [] })
    ∧ ((onVoiceMessage 7 { audio := some 2 }
        ((onVoiceMessage 1 { interrupted := true }
            { nextStartTime := 5, sources := [{ startTime := 2, duration := 3 }] }
            initialAppState.map).1)
        initialAppState.map).1.sources = [{ startTime := 7, duration := 2 }]) :=
  ⟨onVoiceMessage_playback.2.1 _ _ _ _ rfl,
   onVoiceMessage_playback.2.2 _ _ _ _ _ _ rfl (by norm_num)⟩

/-- C5: the route parser extracts `duration` from the labels `Total
time`/`Duration`/`Estimated time` (case-insensitive, capture stopping at
the first `.` or newline or end of text) with the captured value trimmed,
and `distance` the same way from `Total distance`/`Distance`; in
particular `"Total time: 45 mins."` yields `"45 mins"`. -/
theorem parse_duration_distance :
    durationOf (str "Total time: 45 mins.") = some (str "45 mins")
    ∧ durationOf (str "Total time:   45 mins .") = some (str "45 mins")
    ∧ durationOf (str "It takes a while.\nDURATION: two hours\nok") = some (str "two hours")
    ∧ durationOf (str "Estimated time: 1 hr 10 mins\nthen more") = some (str "1 hr 10 mins")
    ∧ distanceOf (str "Total distance: 12 km. Nice.") = some (str "12 km")
    ∧ distanceOf (str "distance: 3 miles\nok") = some (str "3 miles")
    ∧ (∀ text v, durationOf text = some v → trimJS v = v)
    ∧ (∀ text v, distanceOf text = some v → trimJS v = v) := by
  refine ⟨by decide, by decide, by decide, by decide, by decide, by decide, ?_, ?_⟩
  · intro text v h
    obtain ⟨cap, -, hv⟩ := Option.map_eq_some'.mp h
    rw [← hv, trimJS_trimJS]
  · intro text v h
    obtain ⟨cap, -, hv⟩ := Option.map_eq_some'.mp h
    rw [← hv, trimJS_trimJS]

theorem parse_duration_distance_witness :
    trimJS (str "45 mins") = str "45 mins" ∧ trimJS (str "12 km") = str "12 km" :=
  ⟨parse_duration_distance.2.2.2.2.2.2.1 _ _ parse_duration_distance.1,
   parse_duration_distance.2.2.2.2.2.2.2 _ _ parse_duration_distance.2.2.2.2.1⟩

end AskMaps
